import Mathlib

/-!
Verification development for the Sui authority core
(`sui_core/src/authority.rs` and its collaborators).

The Rust code is shallowly embedded: persistent stores become association
lists inside an explicit `Database` record, fallible operations return
`Except SuiError`, and the external collaborators that are out of scope of
the core (the Move execution engine and the transaction input checker) are
passed in as function parameters.  Machine integers of the source are
modelled as `Nat` (none of the verified paths exercise overflow).
-/

namespace Sui

/-! ## Base types (sui_types::base_types) -/

abbrev ObjectID := Nat
abbrev SequenceNumber := Nat
abbrev ObjectDigest := Nat
abbrev TransactionDigest := Nat
abbrev TxSequenceNumber := Nat
abbrev AuthorityName := Nat
abbrev EpochId := Nat

/-- An ObjectRef is the triple (object id, version, content digest). -/
abbrev ObjectRef := ObjectID × SequenceNumber × ObjectDigest

/-- Ownership of an object (sui_types::object::Owner, reduced to the cases
the authority logic branches on). -/
inductive Owner where
  | AddressOwner (addr : Nat)
  | Shared
  | Immutable
deriving DecidableEq, Repr

/-- An object snapshot as the authority store keeps it. -/
structure Object where
  id : ObjectID
  version : SequenceNumber
  contentDigest : ObjectDigest
  previous_transaction : TransactionDigest
  owner : Owner
deriving DecidableEq, Repr

/-- Mirrors `Object::compute_object_reference`. -/
def Object.compute_object_reference (o : Object) : ObjectRef :=
  (o.id, o.version, o.contentDigest)

/-- Input object classification (sui_types::messages::InputObjectKind). -/
inductive InputObjectKind where
  | MovePackage (id : ObjectID)
  | OwnedMoveObject (oref : ObjectRef)
  | SharedMoveObject (id : ObjectID)
deriving DecidableEq, Repr

/-- Mirrors the `matches!(kind, InputObjectKind::SharedMoveObject(_))` test
used in `process_certificate`. -/
def InputObjectKind.isSharedMoveObject : InputObjectKind → Bool
  | .SharedMoveObject _ => true
  | _ => false

/-- A transaction signed by one authority; the signature itself is external
crypto, so only the fields the core logic inspects are kept.  The digest
identifies the underlying transaction. -/
structure SignedTransaction where
  digest : TransactionDigest
  epoch : EpochId
  authority : AuthorityName
deriving DecidableEq, Repr

/-- A quorum-certified transaction.  `validSignature` records the outcome of
the (external, CPU-bound) quorum signature verification
`certificate.verify(&committee)`; `sharedInputObjects` mirrors
`certificate.shared_input_objects()`. -/
structure CertifiedTransaction where
  digest : TransactionDigest
  validSignature : Bool
  sharedInputObjects : List ObjectID
deriving DecidableEq, Repr

/-- Mirrors `CertifiedTransaction::contains_shared_object`. -/
def CertifiedTransaction.contains_shared_object (c : CertifiedTransaction) : Bool :=
  !c.sharedInputObjects.isEmpty

/-- A confirmation request wraps a certificate. -/
structure ConfirmationTransaction where
  certificate : CertifiedTransaction
deriving DecidableEq, Repr

/-- Deterministic outcome of executing a certificate
(sui_types::messages::TransactionEffects, reduced to the recorded facts). -/
structure TransactionEffects where
  success : Bool
  created : List ObjectRef
  mutated : List ObjectRef
  deleted : List ObjectRef
  dependencies : List TransactionDigest
deriving DecidableEq, Repr

/-- Effects co-signed by this authority. -/
structure SignedTransactionEffects where
  effects : TransactionEffects
  epoch : EpochId
  authority : AuthorityName
deriving DecidableEq, Repr

/-- The error cases of `SuiError` that the verified paths can produce. -/
inductive SuiError where
  | ConflictingTransaction (pending_transaction : SignedTransaction)
  | SharedObjectLockNotSetObject
  | UnexpectedSequenceNumber (object_id : ObjectID)
      (expected_sequence : SequenceNumber) (given_sequence : SequenceNumber)
  | LockErrors (errors : List SuiError)
  | InvalidSequenceRangeError
  | TooManyItemsError (limit : Nat)
  | SignatureError
  | StorageError
deriving Repr

/-- Response to a transaction info request
(sui_types::messages::TransactionInfoResponse). -/
structure TransactionInfoResponse where
  signed_transaction : Option SignedTransaction
  certified_transaction : Option CertifiedTransaction
  signed_effects : Option SignedTransactionEffects
deriving Repr

/-! ## Batches (sui_types::batch) -/

/-- The payload of a sealed batch: the half-open run
`[initial_sequence_number, next_sequence_number)` of transaction sequence
numbers it covers. -/
structure AuthorityBatch where
  initial_sequence_number : TxSequenceNumber
  next_sequence_number : TxSequenceNumber
deriving DecidableEq, Repr

/-- A batch together with the authority signature (signature external). -/
structure SignedBatch where
  batch : AuthorityBatch
deriving DecidableEq, Repr

/-- Items streamed back by the batch service (sui_types::batch::UpdateItem). -/
inductive UpdateItem where
  | Transaction : TxSequenceNumber × TransactionDigest → UpdateItem
  | Batch : SignedBatch → UpdateItem
deriving DecidableEq, Repr

/-! ## The database (AuthorityStore), as association lists -/

/-- Persistent state of one authority.  Each field is one of the store's
column families; an association list models the keyed table. -/
structure Database where
  transactions : List (TransactionDigest × SignedTransaction)
  certificates : List (TransactionDigest × CertifiedTransaction)
  effects : List (TransactionDigest × SignedTransactionEffects)
  shared_locks : List ((TransactionDigest × ObjectID) × SequenceNumber)
  owned_locks : List (ObjectRef × SignedTransaction)
  objects : List (ObjectID × Object)
  batches : List SignedBatch
  executed : List (TxSequenceNumber × TransactionDigest)
  next_ticket : TxSequenceNumber
  last_consensus_index : Nat
deriving Repr

/-- First-match association lookup used for every keyed table. -/
def alookup {α β : Type} [DecidableEq α] (l : List (α × β)) (k : α) : Option β :=
  (l.find? (fun p => p.1 = k)).map (fun p => p.2)

/-- Mirrors `SuiDataStore::effects_exists`. -/
def effects_exists (db : Database) (digest : TransactionDigest) : Bool :=
  (alookup db.effects digest).isSome

/-- Mirrors `SuiDataStore::get_signed_transaction_info`, the body of
`AuthorityState::make_transaction_info`: assemble the response from the
three keyed tables. -/
def make_transaction_info (db : Database) (digest : TransactionDigest) :
    TransactionInfoResponse :=
  { signed_transaction := alookup db.transactions digest
    certified_transaction := alookup db.certificates digest
    signed_effects := alookup db.effects digest }

/-- Mirrors `SuiDataStore::all_shared_locks`: every (object id, version)
assignment recorded for a transaction digest. -/
def all_shared_locks (db : Database) (digest : TransactionDigest) :
    List (ObjectID × SequenceNumber) :=
  db.shared_locks.filterMap
    (fun p => if p.1.1 = digest then some (p.1.2, p.2) else none)

/-- Consensus-assigned version for one (digest, object id) key. -/
def sharedLockOf (db : Database) (digest : TransactionDigest) (id : ObjectID) :
    Option SequenceNumber :=
  alookup db.shared_locks (digest, id)

/-- Mirrors `SuiDataStore::sequenced`: per-object lookup of the assignment
for a digest, in input order. -/
def sequenced (db : Database) (digest : TransactionDigest)
    (ids : List ObjectID) : List (Option SequenceNumber) :=
  ids.map (fun id => sharedLockOf db digest id)

/-! ## check_shared_locks (authority.rs) -/

/-- The per-input closure of the `filter_map` inside
`AuthorityState::check_shared_locks`: no assignment for the object id gives
`SharedObjectLockNotSetObject`; an assignment different from the presented
version gives `UnexpectedSequenceNumber{expected, given}`; a matching
assignment gives no error. -/
def sharedLockError (shared_locks : List (ObjectID × SequenceNumber))
    (r : ObjectRef) : Option SuiError :=
  let object_id := r.1
  let version := r.2.1
  match alookup shared_locks object_id with
  | none => some SuiError.SharedObjectLockNotSetObject
  | some expected =>
      if expected ≠ version then
        some (SuiError.UnexpectedSequenceNumber object_id expected version)
      else none

/-- Mirrors `AuthorityState::check_shared_locks`.  The Rust builds a HashMap
from `all_shared_locks`; the sequencer writes each (digest, object id) key
exactly once, so a first-match association lookup has the same behaviour. -/
def check_shared_locks (db : Database) (transaction_digest : TransactionDigest)
    (shared_object_refs : List ObjectRef) : Except SuiError Unit :=
  let shared_locks := all_shared_locks db transaction_digest
  let lock_errors :=
    shared_object_refs.filterMap (sharedLockError shared_locks)
  if lock_errors.isEmpty then Except.ok ()
  else Except.error (SuiError.LockErrors lock_errors)

/-! ## process_certificate and handle_confirmation_transaction (authority.rs) -/

/-- The transaction input checker (`transaction_input_checker.rs`, an
external collaborator out of the verified core): classifies and fetches the
input objects of a certificate, or rejects it. -/
abbrev InputChecker := Database → CertifiedTransaction →
  Except SuiError (List (InputObjectKind × Object))

/-- The Move execution engine (`execution_engine.rs`, an external
collaborator): a pure function from the inputs to effects. -/
abbrev ExecutionEngine := List ObjectRef → List (InputObjectKind × Object) →
  CertifiedTransaction → Except SuiError TransactionEffects

/-- Context of one authority: its identity and its two external
collaborators. -/
structure AuthorityCtx where
  name : AuthorityName
  epoch : EpochId
  checkInput : InputChecker
  engine : ExecutionEngine

/-- Lexicographic comparator on ObjectRef backing the `.sorted()` call of
`process_certificate`. -/
def refLE (a b : ObjectRef) : Bool :=
  decide (a.1 < b.1 ∨ (a.1 = b.1 ∧
    (a.2.1 < b.2.1 ∨ (a.2.1 = b.2.1 ∧ a.2.2 ≤ b.2.2))))

/-- Modelled from the spec: `AuthorityStore::update_state` is not under
src/.  Per §4.1/§5 it commits atomically: persist the certificate and the
signed effects under the transaction digest, append the (ticket sequence,
digest) record to the executed log, release the owned-object locks held by
this transaction, and consume the notifier ticket. -/
def update_state_db (db : Database) (seq : TxSequenceNumber)
    (certificate : CertifiedTransaction)
    (signed_effects : SignedTransactionEffects) : Database :=
  { db with
    certificates := (certificate.digest, certificate) :: db.certificates
    effects := (certificate.digest, signed_effects) :: db.effects
    executed := db.executed ++ [(seq, certificate.digest)]
    owned_locks := db.owned_locks.filter
      (fun p => p.2.digest ≠ certificate.digest)
    next_ticket := db.next_ticket + 1 }

/-- Mirrors `AuthorityState::process_certificate`.  The result carries the
response, the database after the call, and how many times the execution
engine was invoked. -/
def process_certificate (A : AuthorityCtx) (db : Database)
    (confirmation_transaction : ConfirmationTransaction) :
    (Except SuiError TransactionInfoResponse) × Database × Nat :=
  let certificate := confirmation_transaction.certificate
  let transaction_digest := certificate.digest
  match A.checkInput db certificate with
  | .error e => (.error e, db, 0)
  | .ok objects_by_kind =>
    let shared_object_refs :=
      ((objects_by_kind.filter (fun p => p.1.isSharedMoveObject)).map
        (fun p => p.2.compute_object_reference)).mergeSort refLE
    let locks_check : Except SuiError Unit :=
      if shared_object_refs.isEmpty then .ok ()
      else check_shared_locks db transaction_digest shared_object_refs
    match locks_check with
    | .error e => (.error e, db, 0)
    | .ok _ =>
      match A.engine shared_object_refs objects_by_kind certificate with
      | .error e => (.error e, db, 1)
      | .ok effects =>
        let signed_effects : SignedTransactionEffects :=
          { effects := effects, epoch := A.epoch, authority := A.name }
        let seq := db.next_ticket
        let db2 := update_state_db db seq certificate signed_effects
        (.ok { signed_transaction := alookup db2.transactions transaction_digest
               certified_transaction := some certificate
               signed_effects := some signed_effects }, db2, 1)

/-- Mirrors `AuthorityState::handle_confirmation_transaction`: idempotency
check against the effects store first, then quorum signature verification,
then `process_certificate`. -/
def handle_confirmation_transaction (A : AuthorityCtx) (db : Database)
    (confirmation_transaction : ConfirmationTransaction) :
    (Except SuiError TransactionInfoResponse) × Database × Nat :=
  let transaction_digest := confirmation_transaction.certificate.digest
  if effects_exists db transaction_digest then
    (.ok (make_transaction_info db transaction_digest), db, 0)
  else if confirmation_transaction.certificate.validSignature = false then
    (.error .SignatureError, db, 0)
  else
    process_certificate A db confirmation_transaction

/-! ## handle_consensus_certificate (authority.rs) -/

/-- Version the sequencer assigns to a shared object: its current version in
the object table (default 0 when absent). -/
def nextSharedVersion (db : Database) (id : ObjectID) : SequenceNumber :=
  ((alookup db.objects id).map Object.version).getD 0

/-- Modelled from the spec:
`AuthorityStore::persist_certificate_and_lock_shared_objects` is not under
src/.  Per §4.3 it atomically persists the certificate, records the
(digest, object id) → version assignment for every shared input object, and
stores the consensus progress index. -/
def persist_certificate_and_lock_shared_objects (db : Database)
    (certificate : CertifiedTransaction) (index : Nat) : Database :=
  { db with
    certificates := (certificate.digest, certificate) :: db.certificates
    shared_locks := db.shared_locks ++ certificate.sharedInputObjects.map
      (fun id => ((certificate.digest, id), nextSharedVersion db id))
    last_consensus_index := index }

/-- Mirrors `AuthorityState::handle_consensus_certificate`.  Note the
deduplication check indexes only element `[0]` of the `sequenced` lookup,
exactly as the Rust does. -/
def handle_consensus_certificate (db : Database)
    (certificate : CertifiedTransaction) (last_consensus_index : Nat) :
    (Except SuiError Unit) × Database :=
  if certificate.contains_shared_object = false then (.ok (), db)
  else
    let transaction_digest := certificate.digest
    if ((sequenced db transaction_digest
          certificate.sharedInputObjects).getD 0 none).isSome then
      (.ok (), db)
    else if certificate.validSignature = false then
      (.error .SignatureError, db)
    else
      (.ok (), persist_certificate_and_lock_shared_objects db certificate
        last_consensus_index)

/-! ## set_transaction_lock (store side modelled from the spec) -/

/-- Write one lock entry; the association lookup is first-match, so the new
entry shadows any previous entry at the same ref. -/
def writeLock (l : List (ObjectRef × SignedTransaction)) (r : ObjectRef)
    (tx : SignedTransaction) : List (ObjectRef × SignedTransaction) :=
  (r, tx) :: l

/-- Modelled from the spec: `AuthorityStore::set_transaction_lock` is not
under src/.  Per §4.2 it performs an atomic insert-if-absent-else-compare
over all owned refs: if any ref's existing holder differs from the given
signed transaction the whole call fails with
`ConflictingTransaction{existing}` and no lock is written (all-or-nothing);
re-locking with the identical holder is a no-op success. -/
def set_transaction_lock (db : Database)
    (mutable_input_objects : List ObjectRef)
    (signed_transaction : SignedTransaction) :
    (Except SuiError Unit) × Database :=
  match mutable_input_objects.findSome? (fun r =>
      match alookup db.owned_locks r with
      | some existing =>
          if existing ≠ signed_transaction then some existing else none
      | none => none) with
  | some existing => (.error (.ConflictingTransaction existing), db)
  | none =>
      let locks := mutable_input_objects.foldl
        (fun l r => writeLock l r signed_transaction) db.owned_locks
      (.ok (), { db with owned_locks := locks })

/-! ## handle_batch_info_request (authority.rs) -/

/-- Hard ceiling on items per batch info request. -/
def MAX_ITEMS_LIMIT : Nat := 100000

/-- Request for a range of the commit log. -/
structure BatchInfoRequest where
  start : Option TxSequenceNumber
  length : Nat
deriving DecidableEq, Repr

/-- Modelled from the spec: `AuthorityStore::batches_and_transactions` is
not under src/.  Per §4.4 it returns the persisted batches relevant to the
requested range (those whose covered run intersects it) and the persisted
(sequence, digest) records inside the range, each in natural order. -/
def batches_and_transactions (db : Database)
    (start finish : TxSequenceNumber) :
    List SignedBatch × List (TxSequenceNumber × TransactionDigest) :=
  (db.batches.filter (fun b =>
      decide (b.batch.initial_sequence_number < finish ∧
        start < b.batch.next_sequence_number)),
   db.executed.filter (fun t => decide (start ≤ t.1 ∧ t.1 < finish)))

/-- The drain loop of `handle_batch_info_request`: pops each batch, first
emitting the pending transaction records below the batch's
`next_sequence_number`, then the batch itself, tracking
`last_batch_next_seq`; the transaction records left over are returned for
the trailing loop. -/
def drainBatches :
    List SignedBatch → List (TxSequenceNumber × TransactionDigest) →
    TxSequenceNumber →
    List UpdateItem × TxSequenceNumber ×
      List (TxSequenceNumber × TransactionDigest)
  | [], txs, last => ([], last, txs)
  | b :: bs, txs, _ =>
    let pre := txs.takeWhile
      (fun t => decide (t.1 < b.batch.next_sequence_number))
    let rest := txs.dropWhile
      (fun t => decide (t.1 < b.batch.next_sequence_number))
    let out := drainBatches bs rest b.batch.next_sequence_number
    (pre.map UpdateItem.Transaction ++ UpdateItem.Batch b :: out.1, out.2)

/-- The default used to model `last_batch().expect(..)`: the authority is
always initialized with at least one batch, so the default is never read on
reachable states. -/
def genesisBatch : SignedBatch :=
  { batch := { initial_sequence_number := 0, next_sequence_number := 0 } }

/-- Mirrors `AuthorityState::handle_batch_info_request`: validate the
length, resolve a missing start to the last batch's next sequence number,
fetch batches and transaction records, interleave them batch by batch, and
report whether the range runs past the last returned batch. -/
def handle_batch_info_request (db : Database) (request : BatchInfoRequest) :
    Except SuiError
      (List UpdateItem × (Bool × TxSequenceNumber × TxSequenceNumber)) :=
  if request.length = 0 then .error .InvalidSequenceRangeError
  else if MAX_ITEMS_LIMIT < request.length then
    .error (.TooManyItemsError MAX_ITEMS_LIMIT)
  else
    let start := match request.start with
      | some s => s
      | none => (db.batches.getLastD genesisBatch).batch.next_sequence_number
    let finish := start + request.length
    let bt := batches_and_transactions db start finish
    let dr := drainBatches bt.1 bt.2 0
    let should_subscribe := decide (dr.2.1 < finish)
    let items := dr.1 ++ (dr.2.2.map UpdateItem.Transaction)
    .ok (items, (should_subscribe, start, finish))

/-! ## Consensus write-lock guardrail (authority.rs, ExecutionState impl) -/

/-- Mirrors `ask_consensus_write_lock`: `fetch_add(1)` returns the previous
counter value; the call claims the lock exactly when that value was 0. -/
def ask_consensus_write_lock (consensus_guardrail : Nat) : Bool × Nat :=
  (consensus_guardrail == 0, consensus_guardrail + 1)

/-- Mirrors `release_consensus_write_lock`: the source calls
`fetch_sub(0)`, subtracting zero from the counter. -/
def release_consensus_write_lock (consensus_guardrail : Nat) : Nat :=
  consensus_guardrail - 0

/-- One guardrail operation. -/
inductive GuardOp where
  | ask
  | release
deriving DecidableEq, Repr

/-- Run a sequence of guardrail operations against the counter. -/
def runGuard (c : Nat) : List GuardOp → Nat
  | [] => c
  | GuardOp.ask :: ops => runGuard (ask_consensus_write_lock c).2 ops
  | GuardOp.release :: ops => runGuard (release_consensus_write_lock c) ops

/-! ## Batch notifier (modelled from the spec) -/

/-- Modelled from the spec: the ticket/resolution sequencer of
`authority_notifier.rs` is not under src/.  Per §4.4 a monotone counter
issues ticket numbers 0, 1, 2, ... to commits in issuance order; tickets
resolve in arbitrary order, and a ticket's (sequence, digest) pair is
published only once every lower-numbered ticket has also resolved, in
ticket order. -/
structure NotifierState where
  resolved : List Nat
  nextToPublish : Nat
  published : List (Nat × TransactionDigest)
deriving Repr

/-- Publish every ticket from `nextToPublish` on while it is resolved.  The
fuel bounds the walk; `notifierResolve` supplies enough for any state it
builds. -/
def notifierDrain (d : Nat → TransactionDigest) :
    Nat → NotifierState → NotifierState
  | 0, s => s
  | fuel + 1, s =>
    if s.nextToPublish ∈ s.resolved then
      notifierDrain d fuel
        { s with nextToPublish := s.nextToPublish + 1,
                 published :=
                   s.published ++ [(s.nextToPublish, d s.nextToPublish)] }
    else s

/-- Resolve ticket `t` (a commit completed), then publish every ticket that
has become contiguously resolved. -/
def notifierResolve (d : Nat → TransactionDigest) (s : NotifierState)
    (t : Nat) : NotifierState :=
  if t ∈ s.resolved then s
  else notifierDrain d (t :: s.resolved).length
    { s with resolved := t :: s.resolved }

/-- The notifier before any commit resolves. -/
def notifierInit : NotifierState :=
  { resolved := [], nextToPublish := 0, published := [] }

/-- Run the notifier against a completion order: `events` lists the ticket
numbers in the order their commits finish. -/
def notifierRun (d : Nat → TransactionDigest) (events : List Nat) :
    NotifierState :=
  events.foldl (notifierResolve d) notifierInit

/-! ## Auxiliary predicates and fixtures -/

/-- Next sequence number of the last batch of a list, with the accumulator
as the value for the empty list; matches how `last_batch_next_seq` is
threaded through the drain loop. -/
def lastNextD (a : TxSequenceNumber) : List SignedBatch → TxSequenceNumber
  | [] => a
  | b :: bs => lastNextD b.batch.next_sequence_number bs

/-- Next sequence number after the last sealed batch in the database, 0 when
no batch exists. -/
def lastSealedNext (db : Database) : TxSequenceNumber :=
  ((db.batches.getLast?).map (fun b => b.batch.next_sequence_number)).getD 0

/-- Well-formedness of the sealed-batch log: batches are chained, each
starting where the previous one ended (the spec's hash-chained, gap-free
commit log), with the whole log starting at `a`. -/
def batchesChained (a : TxSequenceNumber) : List SignedBatch → Bool
  | [] => true
  | b :: bs =>
    decide (b.batch.initial_sequence_number = a) &&
    decide (a ≤ b.batch.next_sequence_number) &&
    batchesChained b.batch.next_sequence_number bs

/-- Concrete invariant of the notifier: the published log is exactly the
tickets 0, ..., nextToPublish - 1 in issuance order. -/
def NotifierInv (d : Nat → TransactionDigest) (s : NotifierState) : Prop :=
  s.published = (List.range s.nextToPublish).map (fun i => (i, d i))

/-- Fixture authority context whose external collaborators always refuse;
the theorems it witnesses never reach them. -/
def wCtx : AuthorityCtx :=
  { name := 1
    epoch := 0
    checkInput := fun _ _ => .error .StorageError
    engine := fun _ _ _ => .error .StorageError }

/-- Fixture database: effects and a signed transaction stored for digest 7,
a shared-lock assignment for (digest 9, object 4), two sealed batches and
five executed records. -/
def wdbA : Database :=
  { transactions := [(7, { digest := 7, epoch := 0, authority := 1 })]
    certificates := []
    effects := [(7, { effects :=
      { success := true, created := [], mutated := [], deleted := [],
        dependencies := [] }, epoch := 0, authority := 1 })]
    shared_locks := [((9, 4), 2)]
    owned_locks := []
    objects := []
    batches :=
      [ { batch := { initial_sequence_number := 0,
                     next_sequence_number := 2 } },
        { batch := { initial_sequence_number := 2,
                     next_sequence_number := 5 } } ]
    executed := [(0, 100), (1, 101), (2, 102), (3, 103), (4, 104)]
    next_ticket := 5
    last_consensus_index := 0 }

/-- Fixture database with no locks held at all. -/
def wdbFree : Database :=
  { transactions := []
    certificates := []
    effects := []
    shared_locks := []
    owned_locks := []
    objects := []
    batches := []
    executed := []
    next_ticket := 0
    last_consensus_index := 0 }

/-- Fixture signed transaction with digest 1. -/
def wtx1 : SignedTransaction := { digest := 1, epoch := 0, authority := 1 }

/-- Fixture signed transaction with digest 2. -/
def wtx2 : SignedTransaction := { digest := 2, epoch := 0, authority := 2 }

/-! ## Theorems -/

/-- C1: for every certificate whose transaction digest already has effects
stored, handle_confirmation_transaction returns the cached transaction-info
response, does not invoke the execution engine, and does not modify any
state. -/
theorem confirmation_idempotent (A : AuthorityCtx) (db : Database)
    (ct : ConfirmationTransaction)
    (h : effects_exists db ct.certificate.digest = true) :
    handle_confirmation_transaction A db ct =
      (.ok (make_transaction_info db ct.certificate.digest), db, 0) := by
  simp [handle_confirmation_transaction, h]

theorem confirmation_idempotent_witness :
    effects_exists wdbA 7 = true ∧
    handle_confirmation_transaction wCtx wdbA
      { certificate :=
          { digest := 7, validSignature := true, sharedInputObjects := [] } } =
      (.ok (make_transaction_info wdbA 7), wdbA, 0) :=
  ⟨by decide, confirmation_idempotent wCtx wdbA _ (by decide)⟩

/-- C9: the effects-existence idempotency check runs before quorum signature
verification, so a certificate with stored effects is answered from the
cache even when its signatures do not verify. -/
theorem confirmation_check_precedes_verification (A : AuthorityCtx)
    (db : Database) (ct : ConfirmationTransaction)
    (h : effects_exists db ct.certificate.digest = true)
    (hsig : ct.certificate.validSignature = false) :
    handle_confirmation_transaction A db ct =
      (.ok (make_transaction_info db ct.certificate.digest), db, 0) := by
  simp [handle_confirmation_transaction, h]

theorem confirmation_check_precedes_verification_witness :
    effects_exists wdbA 7 = true ∧
    handle_confirmation_transaction wCtx wdbA
      { certificate :=
          { digest := 7, validSignature := false, sharedInputObjects := [] } } =
      (.ok (make_transaction_info wdbA 7), wdbA, 0) :=
  ⟨by decide,
   confirmation_check_precedes_verification wCtx wdbA _ (by decide) rfl⟩

/-- C8: release_consensus_write_lock subtracts zero, so it never changes the
guardrail counter; once the counter is positive it stays positive under any
sequence of ask/release operations, and every later
ask_consensus_write_lock returns false. -/
theorem guardrail_release_noop (c : Nat) (ops : List GuardOp) (h : 1 ≤ c) :
    (∀ n, release_consensus_write_lock n = n) ∧
    1 ≤ runGuard c ops ∧
    (ask_consensus_write_lock (runGuard c ops)).1 = false := by
  have key : ∀ (ops : List GuardOp) (c : Nat), 1 ≤ c → 1 ≤ runGuard c ops := by
    intro ops
    induction ops with
    | nil => intro c h; simpa [runGuard] using h
    | cons op ops ih =>
      intro c h
      cases op with
      | ask =>
        simpa [runGuard, ask_consensus_write_lock] using ih (c + 1) (by omega)
      | release =>
        simpa [runGuard, release_consensus_write_lock] using ih c h
  refine ⟨fun n => rfl, key ops c h, ?_⟩
  have h2 := key ops c h
  simp only [ask_consensus_write_lock]
  simpa using by omega

theorem guardrail_release_noop_witness :
    (∀ n, release_consensus_write_lock n = n) ∧
    1 ≤ runGuard 1 [GuardOp.release, GuardOp.ask, GuardOp.release] ∧
    (ask_consensus_write_lock
      (runGuard 1 [GuardOp.release, GuardOp.ask, GuardOp.release])).1 =
      false :=
  guardrail_release_noop 1 [GuardOp.release, GuardOp.ask, GuardOp.release]
    (by decide)

/-- C4: handle_consensus_certificate returns Ok and leaves the state
unchanged for every certificate without shared-object inputs, and likewise
deduplicates (no verification, no persistence) every certificate whose
digest already has its shared-lock assignments. -/
theorem consensus_certificate_dedup (db : Database)
    (cert : CertifiedTransaction) (idx : Nat) :
    (cert.sharedInputObjects = [] →
      handle_consensus_certificate db cert idx = (.ok (), db)) ∧
    ((∀ id ∈ cert.sharedInputObjects,
        (sharedLockOf db cert.digest id).isSome = true) →
      handle_consensus_certificate db cert idx = (.ok (), db)) := by
  constructor
  · intro h
    simp [handle_consensus_certificate,
      CertifiedTransaction.contains_shared_object, h]
  · intro h
    match hobv : cert.sharedInputObjects with
    | [] =>
      simp [handle_consensus_certificate,
        CertifiedTransaction.contains_shared_object, hobv]
    | id :: rest =>
      have hid : (sharedLockOf db cert.digest id).isSome = true := by
        refine h id ?_
        rw [hobv]
        exact List.mem_cons_self id rest
      simp [handle_consensus_certificate,
        CertifiedTransaction.contains_shared_object, hobv, sequenced, hid]

theorem consensus_certificate_dedup_witness :
    handle_consensus_certificate wdbA
      { digest := 11, validSignature := true, sharedInputObjects := [] } 3 =
      (.ok (), wdbA) ∧
    handle_consensus_certificate wdbA
      { digest := 9, validSignature := false, sharedInputObjects := [4] } 3 =
      (.ok (), wdbA) :=
  ⟨(consensus_certificate_dedup wdbA _ 3).1 rfl,
   (consensus_certificate_dedup wdbA _ 3).2 (by decide)⟩

/-- C10: the deduplication check of handle_consensus_certificate inspects
only the first element of the `sequenced` lookup: when the first shared
input object already has an assignment for the digest the call returns Ok
without persisting anything, even if other shared inputs are unassigned and
even if the certificate does not verify. -/
theorem consensus_certificate_dedup_first_only (db : Database)
    (cert : CertifiedTransaction) (idx : Nat) (id : ObjectID)
    (rest : List ObjectID)
    (hshape : cert.sharedInputObjects = id :: rest)
    (h : (sharedLockOf db cert.digest id).isSome = true) :
    handle_consensus_certificate db cert idx = (.ok (), db) := by
  simp [handle_consensus_certificate,
    CertifiedTransaction.contains_shared_object, hshape, sequenced, h]

theorem consensus_certificate_dedup_first_only_witness :
    (sharedLockOf wdbA 9 4).isSome = true ∧
    sharedLockOf wdbA 9 5 = none ∧
    handle_consensus_certificate wdbA
      { digest := 9, validSignature := false, sharedInputObjects := [4, 5] }
      3 = (.ok (), wdbA) :=
  ⟨by decide, by decide,
   consensus_certificate_dedup_first_only wdbA _ 3 4 [5] rfl (by decide)⟩

/-- C5: handle_batch_info_request rejects length 0 with
InvalidSequenceRangeError, rejects any length above 100000 with
TooManyItemsError, and never rejects a length between 1 and 100000 on
grounds of length. -/
theorem batch_request_length_validation (db : Database)
    (request : BatchInfoRequest) :
    (request.length = 0 →
      handle_batch_info_request db request =
        .error .InvalidSequenceRangeError) ∧
    (100000 < request.length →
      handle_batch_info_request db request =
        .error (.TooManyItemsError 100000)) ∧
    (1 ≤ request.length → request.length ≤ 100000 →
      ∃ v, handle_batch_info_request db request = .ok v) := by
  refine ⟨?_, ?_, ?_⟩
  · intro h
    simp [handle_batch_info_request, h]
  · intro h
    have h0 : ¬ request.length = 0 := by omega
    simp [handle_batch_info_request, h0, MAX_ITEMS_LIMIT, h]
  · intro h1 h2
    have h0 : ¬ request.length = 0 := by omega
    have h3 : ¬ (MAX_ITEMS_LIMIT < request.length) := by
      simp only [MAX_ITEMS_LIMIT]
      omega
    simp only [handle_batch_info_request, h0, h3, if_false, ite_false]
    exact ⟨_, rfl⟩

theorem batch_request_length_validation_witness :
    handle_batch_info_request wdbA { start := some 0, length := 0 } =
      .error .InvalidSequenceRangeError ∧
    handle_batch_info_request wdbA { start := some 0, length := 100001 } =
      .error (.TooManyItemsError 100000) ∧
    ∃ v, handle_batch_info_request wdbA
      { start := some 0, length := 100000 } = .ok v :=
  ⟨(batch_request_length_validation wdbA _).1 rfl,
   (batch_request_length_validation wdbA _).2.1 (by decide),
   (batch_request_length_validation wdbA _).2.2 (by decide) (by decide)⟩

/-- Helper: the per-input check passes exactly when the consensus-assigned
version equals the presented version. -/
theorem sharedLockError_eq_none_iff
    (sl : List (ObjectID × SequenceNumber)) (r : ObjectRef) :
    sharedLockError sl r = none ↔ alookup sl r.1 = some r.2.1 := by
  rcases h : alookup sl r.1 with _ | expected
  · simp [sharedLockError, h]
  · by_cases hv : expected = r.2.1
    · simp [sharedLockError, h, hv]
    · simp [sharedLockError, h, hv]

/-- C3: check_shared_locks succeeds exactly when every shared input has a
consensus assignment equal to its presented version; on failure the
LockErrors list contains SharedObjectLockNotSetObject for every unassigned
input and UnexpectedSequenceNumber (expected = assigned, given = presented)
for every mismatched input. -/
theorem check_shared_locks_spec (db : Database)
    (digest : TransactionDigest) (refs : List ObjectRef) :
    (check_shared_locks db digest refs = .ok () ↔
      ∀ r ∈ refs, alookup (all_shared_locks db digest) r.1 = some r.2.1) ∧
    (∀ e, check_shared_locks db digest refs = .error e →
      ∃ errs, e = .LockErrors errs ∧
        (∀ r ∈ refs, alookup (all_shared_locks db digest) r.1 = none →
          SuiError.SharedObjectLockNotSetObject ∈ errs) ∧
        (∀ r ∈ refs, ∀ v,
          alookup (all_shared_locks db digest) r.1 = some v → v ≠ r.2.1 →
          SuiError.UnexpectedSequenceNumber r.1 v r.2.1 ∈ errs)) := by
  have hchar : check_shared_locks db digest refs =
      if (refs.filterMap
            (sharedLockError (all_shared_locks db digest))).isEmpty then
        Except.ok ()
      else
        Except.error (SuiError.LockErrors (refs.filterMap
          (sharedLockError (all_shared_locks db digest)))) := rfl
  constructor
  · constructor
    · intro hok r hr
      rw [hchar] at hok
      by_cases hemp : (refs.filterMap
          (sharedLockError (all_shared_locks db digest))).isEmpty
      · have hnil : refs.filterMap
            (sharedLockError (all_shared_locks db digest)) = [] := by
          simpa using hemp
        exact (sharedLockError_eq_none_iff _ r).mp
          (List.filterMap_eq_nil_iff.mp hnil r hr)
      · simp [hemp] at hok
    · intro hall
      rw [hchar]
      have hnil : refs.filterMap
          (sharedLockError (all_shared_locks db digest)) = [] :=
        List.filterMap_eq_nil_iff.mpr (fun r hr =>
          (sharedLockError_eq_none_iff _ r).mpr (hall r hr))
      simp [hnil]
  · intro e he
    rw [hchar] at he
    by_cases hemp : (refs.filterMap
        (sharedLockError (all_shared_locks db digest))).isEmpty
    · simp [hemp] at he
    · simp only [hemp, if_false, Bool.false_eq_true] at he
      refine ⟨refs.filterMap (sharedLockError (all_shared_locks db digest)),
        ?_, ?_, ?_⟩
      · cases he
        rfl
      · intro r hr hnone
        refine List.mem_filterMap.mpr ⟨r, hr, ?_⟩
        simp [sharedLockError, hnone]
      · intro r hr v hsome hne
        refine List.mem_filterMap.mpr ⟨r, hr, ?_⟩
        simp [sharedLockError, hsome, hne]

theorem check_shared_locks_spec_witness :
    check_shared_locks wdbA 9 [(4, 2, 0)] = Except.ok () ∧
    ∃ errs, check_shared_locks wdbA 9 [(4, 3, 0), (5, 1, 0)] =
        .error (.LockErrors errs) ∧
      SuiError.SharedObjectLockNotSetObject ∈ errs ∧
      SuiError.UnexpectedSequenceNumber 4 2 3 ∈ errs := by
  constructor
  · exact (check_shared_locks_spec wdbA 9 [(4, 2, 0)]).1.mpr (by decide)
  · obtain ⟨errs, hEq, hn, hm⟩ :=
      (check_shared_locks_spec wdbA 9 [(4, 3, 0), (5, 1, 0)]).2
        (SuiError.LockErrors [SuiError.UnexpectedSequenceNumber 4 2 3,
          SuiError.SharedObjectLockNotSetObject]) rfl
    refine ⟨errs, ?_,
      hn (5, 1, 0) (by decide) (by decide),
      hm (4, 3, 0) (by decide) 2 (by decide) (by decide)⟩
    rw [← hEq]
    rfl

/-- Helper: lookup after writing one lock. -/
theorem alookup_writeLock (l : List (ObjectRef × SignedTransaction))
    (r x : ObjectRef) (tx : SignedTransaction) :
    alookup (writeLock l r tx) x =
      if x = r then some tx else alookup l x := by
  by_cases h : x = r
  · subst h
    simp [writeLock, alookup, List.find?_cons]
  · have hrx : ¬ r = x := fun hc => h hc.symm
    simp [writeLock, alookup, List.find?_cons, hrx, h]

/-- Helper: lookup after writing a batch of locks with the same holder. -/
theorem alookup_writeAll (refs : List ObjectRef)
    (l : List (ObjectRef × SignedTransaction)) (tx : SignedTransaction)
    (x : ObjectRef) :
    alookup (refs.foldl (fun acc r => writeLock acc r tx) l) x =
      if x ∈ refs then some tx else alookup l x := by
  induction refs generalizing l with
  | nil => simp
  | cons r refs ih =>
    simp only [List.foldl_cons]
    rw [ih]
    by_cases hx : x ∈ refs
    · simp [hx]
    · by_cases hxr : x = r
      · simp [hx, hxr, alookup_writeLock]
      · simp [hx, hxr, alookup_writeLock]

/-- Helper: findSome? returns the common value when every element yields
either nothing or that value and at least one element yields it. -/
theorem findSome?_eq_of {α β : Type} (l : List α) (f : α → Option β) (v : β)
    (hall : ∀ x ∈ l, f x = none ∨ f x = some v)
    (hex : ∃ x ∈ l, f x = some v) :
    l.findSome? f = some v := by
  induction l with
  | nil =>
    rcases hex with ⟨x, hx, _⟩
    cases hx
  | cons a l ih =>
    rcases hall a (List.mem_cons_self a l) with ha | ha
    · rw [List.findSome?_cons, ha]
      apply ih
      · intro x hx
        exact hall x (List.mem_cons_of_mem _ hx)
      · rcases hex with ⟨x, hx, hfx⟩
        rcases List.mem_cons.mp hx with rfl | hx
        · rw [ha] at hfx
          cases hfx
        · exact ⟨x, hx, hfx⟩
    · rw [List.findSome?_cons, ha]

/-- C2: once one of two signed transactions with different digests has
locked a shared owned input ref, the other's set_transaction_lock call
fails with ConflictingTransaction carrying the holder and acquires no locks
at all (the state is returned unchanged). -/
theorem set_transaction_lock_conflict (db db1 : Database)
    (refs1 refs2 : List ObjectRef) (tx1 tx2 : SignedTransaction)
    (r : ObjectRef)
    (hdg : tx1.digest ≠ tx2.digest)
    (hr1 : r ∈ refs1) (hr2 : r ∈ refs2)
    (hfree : ∀ x ∈ refs2, alookup db.owned_locks x = none)
    (h1 : set_transaction_lock db refs1 tx1 = (.ok (), db1)) :
    set_transaction_lock db1 refs2 tx2 =
      (.error (.ConflictingTransaction tx1), db1) := by
  have htx : tx1 ≠ tx2 := fun hc => hdg (congrArg SignedTransaction.digest hc)
  simp only [set_transaction_lock] at h1
  split at h1
  · exact absurd (congrArg Prod.fst h1) (by simp)
  · have hdb1 : db1 = { db with owned_locks :=
        (refs1.foldl (fun l r => writeLock l r tx1) db.owned_locks) } :=
      (congrArg Prod.snd h1).symm
    have hlocks : ∀ x, alookup db1.owned_locks x =
        if x ∈ refs1 then some tx1 else alookup db.owned_locks x := by
      intro x
      rw [hdb1]
      exact alookup_writeAll refs1 db.owned_locks tx1 x
    have hfind : refs2.findSome? (fun x =>
        match alookup db1.owned_locks x with
        | some existing => if existing ≠ tx2 then some existing else none
        | none => none) = some tx1 := by
      apply findSome?_eq_of
      · intro x hx
        rw [hlocks x]
        by_cases hx1 : x ∈ refs1
        · simp [hx1, htx]
        · simp [hx1, hfree x hx]
      · refine ⟨r, hr2, ?_⟩
        rw [hlocks r]
        simp [hr1, htx]
    simp only [set_transaction_lock, hfind]

theorem set_transaction_lock_conflict_witness :
    set_transaction_lock wdbFree [(1, 0, 0)] wtx1 =
      (.ok (), (set_transaction_lock wdbFree [(1, 0, 0)] wtx1).2) ∧
    set_transaction_lock (set_transaction_lock wdbFree [(1, 0, 0)] wtx1).2
        [(1, 0, 0), (2, 0, 0)] wtx2 =
      (.error (.ConflictingTransaction wtx1),
        (set_transaction_lock wdbFree [(1, 0, 0)] wtx1).2) :=
  ⟨rfl,
   set_transaction_lock_conflict wdbFree _ [(1, 0, 0)] [(1, 0, 0), (2, 0, 0)]
     wtx1 wtx2 (1, 0, 0) (by decide) (by decide) (by decide) (by decide) rfl⟩

/-- Helper: publishing drains preserve the notifier invariant. -/
theorem notifierDrain_inv (d : Nat → TransactionDigest) (fuel : Nat)
    (s : NotifierState) (h : NotifierInv d s) :
    NotifierInv d (notifierDrain d fuel s) := by
  induction fuel generalizing s with
  | zero => exact h
  | succ fuel ih =>
    by_cases hm : s.nextToPublish ∈ s.resolved
    · simp only [notifierDrain, hm, if_true]
      apply ih
      simp only [NotifierInv] at h ⊢
      simp [h, List.range_succ]
    · simp only [notifierDrain, hm, if_false]
      exact h

/-- Helper: resolving one ticket preserves the notifier invariant. -/
theorem notifierResolve_inv (d : Nat → TransactionDigest)
    (s : NotifierState) (t : Nat) (h : NotifierInv d s) :
    NotifierInv d (notifierResolve d s t) := by
  by_cases hm : t ∈ s.resolved
  · simpa [notifierResolve, hm] using h
  · simp only [notifierResolve, hm, if_false]
    exact notifierDrain_inv d _ _ h

/-- Helper: every reachable notifier state publishes exactly the tickets
0, ..., nextToPublish - 1 in issuance order. -/
theorem notifierRun_inv (d : Nat → TransactionDigest) (events : List Nat) :
    NotifierInv d (notifierRun d events) := by
  have key : ∀ s, NotifierInv d s →
      NotifierInv d (events.foldl (notifierResolve d) s) := by
    induction events with
    | nil => exact fun s h => h
    | cons e events ih =>
      exact fun s h => ih _ (notifierResolve_inv d s e h)
  exact key notifierInit (by simp [NotifierInv, notifierInit])

/-- C7: whatever order commit tickets resolve in, the published log's
sequence numbers are exactly 0, 1, ..., len-1 in order (strictly
increasing, gap-free, publish order = ticket-issuance order), and when
distinct tickets carry distinct digests the published digests contain no
duplicate. -/
theorem notifier_log_gap_free (d : Nat → TransactionDigest)
    (events : List Nat) :
    ((notifierRun d events).published.map Prod.fst =
      List.range (notifierRun d events).published.length) ∧
    (Function.Injective d →
      ((notifierRun d events).published.map Prod.snd).Nodup) := by
  have h := notifierRun_inv d events
  rw [NotifierInv] at h
  constructor
  · rw [h]
    simp only [List.map_map, List.length_map, List.length_range]
    have hc : (Prod.fst ∘ fun i => (i, d i)) = fun i : Nat => i := rfl
    rw [hc]
    exact List.map_id' _
  · intro hinj
    rw [h]
    simp only [List.map_map]
    have : (Prod.snd ∘ fun i => (i, d i)) = d := rfl
    rw [this]
    exact (List.nodup_range _).map hinj

theorem notifier_log_gap_free_witness :
    ((notifierRun (fun n => n) [2, 0, 1]).published.map Prod.fst =
      List.range (notifierRun (fun n => n) [2, 0, 1]).published.length) ∧
    ((notifierRun (fun n => n) [2, 0, 1]).published.map Prod.snd).Nodup :=
  ⟨(notifier_log_gap_free (fun n => n) [2, 0, 1]).1,
   (notifier_log_gap_free (fun n => n) [2, 0, 1]).2 (fun a b hab => hab)⟩

/-- Helper: the drain loop's final last_batch_next_seq is the next sequence
number of the last drained batch. -/
theorem drainBatches_last (bs : List SignedBatch)
    (txs : List (TxSequenceNumber × TransactionDigest))
    (a : TxSequenceNumber) :
    (drainBatches bs txs a).2.1 = lastNextD a bs := by
  induction bs generalizing txs a with
  | nil => rfl
  | cons b bs ih => simp [drainBatches, lastNextD, ih]

/-- Helper: lastNextD agrees with the last element of the list. -/
theorem lastNextD_eq_getLast (a : TxSequenceNumber) (bs : List SignedBatch) :
    lastNextD a bs =
      ((bs.getLast?).map (fun b => b.batch.next_sequence_number)).getD a := by
  induction bs generalizing a with
  | nil => rfl
  | cons b bs ih =>
    cases bs with
    | nil => rfl
    | cons b2 bs2 =>
      rw [lastNextD, ih, List.getLast?_cons_cons]
      rcases hgl : (b2 :: bs2).getLast? with _ | x
      · exact absurd (List.getLast?_eq_none_iff.mp hgl) (by simp)
      · rfl

/-- Helper: a chained batch log only moves forward. -/
theorem lastNextD_ge (a : TxSequenceNumber) (bs : List SignedBatch)
    (h : batchesChained a bs = true) : a ≤ lastNextD a bs := by
  induction bs generalizing a with
  | nil => exact Nat.le_refl a
  | cons b bs ih =>
    simp only [batchesChained, Bool.and_eq_true, decide_eq_true_eq] at h
    exact Nat.le_trans h.1.2 (ih _ h.2)

/-- Helper: every batch of a chained log ends at or after the log's start. -/
theorem chained_le_next (a : TxSequenceNumber) (bs : List SignedBatch)
    (h : batchesChained a bs = true) :
    ∀ x ∈ bs, a ≤ x.batch.next_sequence_number := by
  induction bs generalizing a with
  | nil =>
    intro x hx
    cases hx
  | cons b bs ih =>
    simp only [batchesChained, Bool.and_eq_true, decide_eq_true_eq] at h
    intro x hx
    rcases List.mem_cons.mp hx with rfl | hx
    · exact h.1.2
    · exact Nat.le_trans h.1.2 (ih _ h.2 x hx)

/-- Helper: a lower bound on the accumulator and on every element's next
sequence number bounds lastNextD. -/
theorem lastNextD_ge_of_all (c a : TxSequenceNumber) (l : List SignedBatch)
    (ha : c ≤ a) (hall : ∀ x ∈ l, c ≤ x.batch.next_sequence_number) :
    c ≤ lastNextD a l := by
  induction l generalizing a with
  | nil => exact ha
  | cons b l ih =>
    exact ih _ (hall b (List.mem_cons_self b l))
      (fun x hx => hall x (List.mem_cons_of_mem _ hx))

/-- Helper: once the walk is strictly past `start`, restricting a chained
log to the batches overlapping [start, finish) does not change whether the
log reaches `finish`. -/
theorem filter_lastNextD_inside (start finish : TxSequenceNumber)
    (bs : List SignedBatch) (a : TxSequenceNumber)
    (hch : batchesChained a bs = true) (hsa : start < a) :
    (finish ≤ lastNextD a bs ↔
      finish ≤ lastNextD a (bs.filter (fun b =>
        decide (b.batch.initial_sequence_number < finish ∧
          start < b.batch.next_sequence_number)))) := by
  induction bs generalizing a with
  | nil => exact Iff.rfl
  | cons b bs ih =>
    simp only [batchesChained, Bool.and_eq_true, decide_eq_true_eq] at hch
    obtain ⟨⟨hinit, hanext⟩, hch2⟩ := hch
    by_cases ha : a < finish
    · have hpred : (decide (b.batch.initial_sequence_number < finish ∧
          start < b.batch.next_sequence_number)) = true := by
        rw [decide_eq_true_eq]
        exact ⟨hinit ▸ ha, Nat.lt_of_lt_of_le hsa hanext⟩
      rw [List.filter_cons, if_pos hpred]
      show finish ≤ lastNextD b.batch.next_sequence_number bs ↔
        finish ≤ lastNextD b.batch.next_sequence_number (bs.filter _)
      exact ih _ hch2 (Nat.lt_of_lt_of_le hsa hanext)
    · have hfa : finish ≤ a := Nat.le_of_not_lt ha
      have hpred : ¬ (decide (b.batch.initial_sequence_number < finish ∧
          start < b.batch.next_sequence_number)) = true := by
        rw [decide_eq_true_eq]
        intro hc
        exact ha (hinit ▸ hc.1)
      rw [List.filter_cons, if_neg hpred]
      refine iff_of_true ?_ ?_
      · show finish ≤ lastNextD b.batch.next_sequence_number bs
        exact lastNextD_ge_of_all finish _ bs (Nat.le_trans hfa hanext)
          (fun x hx => Nat.le_trans (Nat.le_trans hfa hanext)
            (chained_le_next _ bs hch2 x hx))
      · exact lastNextD_ge_of_all finish a _ hfa
          (fun x hx => Nat.le_trans (Nat.le_trans hfa hanext)
            (chained_le_next _ bs hch2 x (List.mem_filter.mp hx).1))

/-- Helper: for a chained batch log starting at or before `start`, the
range [start, finish) reaches past the whole log exactly when it reaches
past the batches overlapping the range (as collected by the drain loop
starting from 0). -/
theorem filter_lastNextD (start finish : TxSequenceNumber)
    (bs : List SignedBatch) (a : TxSequenceNumber)
    (hch : batchesChained a bs = true) (has : a ≤ start)
    (hsf : start < finish) :
    (finish ≤ lastNextD a bs ↔
      finish ≤ lastNextD 0 (bs.filter (fun b =>
        decide (b.batch.initial_sequence_number < finish ∧
          start < b.batch.next_sequence_number)))) := by
  induction bs generalizing a with
  | nil =>
    simp only [List.filter_nil]
    refine iff_of_false ?_ ?_
    · show ¬ finish ≤ a
      exact fun hc => Nat.not_le.mpr (Nat.lt_of_lt_of_le hsf hc) has
    · show ¬ finish ≤ 0
      exact fun hc => Nat.not_lt_zero start (Nat.le_zero.mp hc ▸ hsf)
  | cons b bs ih =>
    simp only [batchesChained, Bool.and_eq_true, decide_eq_true_eq] at hch
    obtain ⟨⟨hinit, hanext⟩, hch2⟩ := hch
    by_cases hbn : start < b.batch.next_sequence_number
    · have hpred : (decide (b.batch.initial_sequence_number < finish ∧
          start < b.batch.next_sequence_number)) = true := by
        rw [decide_eq_true_eq]
        refine ⟨?_, hbn⟩
        rw [hinit]
        exact Nat.lt_of_le_of_lt has hsf
      rw [List.filter_cons, if_pos hpred]
      show finish ≤ lastNextD b.batch.next_sequence_number bs ↔
        finish ≤ lastNextD b.batch.next_sequence_number (bs.filter _)
      exact filter_lastNextD_inside start finish bs _ hch2 hbn
    · have hpred : ¬ (decide (b.batch.initial_sequence_number < finish ∧
          start < b.batch.next_sequence_number)) = true := by
        rw [decide_eq_true_eq]
        intro hc
        exact hbn hc.2
      rw [List.filter_cons, if_neg hpred]
      show finish ≤ lastNextD b.batch.next_sequence_number bs ↔ _
      exact ih _ hch2 (Nat.le_of_not_lt hbn)

/-- C6: a successful handle_batch_info_request over [start, start+length)
reports should_subscribe exactly when the range extends past the last
sealed batch in the database, together with the computed range bounds. -/
theorem batch_request_subscribe (db : Database) (request : BatchInfoRequest)
    (s : TxSequenceNumber)
    (hstart : request.start = some s)
    (hlen : 1 ≤ request.length) (hmax : request.length ≤ 100000)
    (hch : batchesChained 0 db.batches = true) :
    ∃ items, handle_batch_info_request db request =
      .ok (items, (decide (lastSealedNext db < s + request.length), s,
        s + request.length)) := by
  have h0 : ¬ request.length = 0 := by omega
  have h3 : ¬ (MAX_ITEMS_LIMIT < request.length) := by
    show ¬ (100000 < request.length)
    omega
  have hlast : lastNextD 0 db.batches = lastSealedNext db := by
    rw [lastNextD_eq_getLast]
    rfl
  have hiff := filter_lastNextD s (s + request.length) db.batches 0 hch
    (Nat.zero_le s) (Nat.lt_add_of_pos_right hlen)
  have hbool : decide (lastNextD 0 (db.batches.filter (fun b =>
        decide (b.batch.initial_sequence_number < s + request.length ∧
          s < b.batch.next_sequence_number))) < s + request.length) =
      decide (lastSealedNext db < s + request.length) := by
    rw [decide_eq_decide, ← Nat.not_le, ← Nat.not_le, ← hlast]
    exact not_congr hiff.symm
  have hrun : handle_batch_info_request db request =
      .ok ((drainBatches (batches_and_transactions db s
            (s + request.length)).1 (batches_and_transactions db s
            (s + request.length)).2 0).1 ++
          (((drainBatches (batches_and_transactions db s
            (s + request.length)).1 (batches_and_transactions db s
            (s + request.length)).2 0).2.2).map UpdateItem.Transaction),
        (decide ((drainBatches (batches_and_transactions db s
            (s + request.length)).1 (batches_and_transactions db s
            (s + request.length)).2 0).2.1 < s + request.length), s,
          s + request.length)) := by
    unfold handle_batch_info_request
    rw [if_neg h0, if_neg h3, hstart]
  rw [drainBatches_last] at hrun
  simp only [batches_and_transactions] at hrun
  rw [hbool] at hrun
  exact ⟨_, hrun⟩

theorem batch_request_subscribe_witness :
    batchesChained 0 wdbA.batches = true ∧
    ∃ items, handle_batch_info_request wdbA { start := some 1, length := 10 } =
      .ok (items, (decide (lastSealedNext wdbA < 1 + 10), 1, 1 + 10)) :=
  ⟨by decide,
   batch_request_subscribe wdbA { start := some 1, length := 10 } 1 rfl
     (by decide) (by decide) (by decide)⟩

end Sui
